import Mathlib

/-!
Verification of the version-resolver in `setup.py` of thermod-monitor-dbstats.

The only non-metadata logic of the repository is the function `get_version`:

  def get_version():
      main_ns = {}
      version_str = None
      with open('thermod-monitor-dbstats','rt') as script:
          for line in script:
              if line.find('__version__') == 0:
                  version_str = '# -*- coding: utf-8 -*-\n{}'.format(line)
                  break
      exec(version_str, main_ns)
      return main_ns['__version__']

This file embeds that function shallowly:

* the filesystem is a map from paths to `Option (List String)`; `some lines`
  is a readable text file given as its newline-stripped lines, `none` is a
  missing/unreadable file (`open` raises an I/O error);
* `pyFind` models Python's `str.find` (index of first occurrence, `-1` if
  absent), so `line.find('__version__') == 0` becomes `markerMatches`;
* the `for`/`break` scan is `List.find?`, which consults exactly the lines
  up to and including the first match;
* `exec` is modelled for the statement shapes that can actually reach it
  here: a source text is split on newlines; blank lines and `#` comment
  lines are skipped; every other line must be a simple assignment
  `<identifier> = <literal>` where the literal is a quoted string without
  escape sequences, a decimal integer, or a decimal floating literal
  (kept as its source text - no float arithmetic occurs in the program).
  Anything else is a compile failure (`SyntaxError`).  Assignments are
  recorded in an association namespace, latest binding first;
* `exec(None, ...)` - reached when no line matched - raises `TypeError`,
  modelled by the dedicated error `PyErr.typeErrorNone`;
* `main_ns['__version__']` on a namespace without that key raises
  `KeyError`, modelled by `PyErr.keyError`.
-/

/-- Values that a modelled assignment can bind: Python string, int or float
literals.  A float literal is kept as its source text because the program
never computes with it. -/
inductive PyVal where
  | str (s : String)
  | intVal (n : Nat)
  | floatLit (lit : String)
  deriving DecidableEq, Repr

/-- The ways the modelled `get_version` can raise: `open` fails
(`IOError`/`FileNotFoundError`), `exec(None, ...)` raises `TypeError`,
the snippet fails to compile (`SyntaxError`), or the final dictionary
lookup raises `KeyError`. -/
inductive PyErr where
  | ioError
  | typeErrorNone
  | syntaxError
  | keyError (k : String)
  deriving DecidableEq, Repr

/-- The single-quote character, written via its code point. -/
def squote : Char := Char.ofNat 39

/-- Space or tab, the intra-line whitespace Python tolerates around
assignment tokens. -/
def isSpaceTab (c : Char) : Bool := c = ' ' || c = '\t'

/-- First character of a Python identifier (ASCII model). -/
def isIdentStart (c : Char) : Bool := c.isAlpha || c = '_'

/-- Continuation character of a Python identifier (ASCII model). -/
def isIdentChar (c : Char) : Bool := c.isAlphanum || c = '_'

/-- Longest identifier-character run at the front of the input, with
the remainder. -/
def takeIdent : List Char → List Char × List Char
  | [] => ([], [])
  | c :: cs =>
    if isIdentChar c then
      let p := takeIdent cs
      (c :: p.1, p.2)
    else ([], c :: cs)

/-- Longest digit run at the front of the input, with the remainder. -/
def takeDigits : List Char → List Char × List Char
  | [] => ([], [])
  | c :: cs =>
    if c.isDigit then
      let p := takeDigits cs
      (c :: p.1, p.2)
    else ([], c :: cs)

/-- Digits to the number they denote in base 10. -/
def digitsToNat (ds : List Char) : Nat :=
  ds.foldl (fun a c => a * 10 + (c.toNat - 48)) 0

/-- Body of a quoted string literal opened with quote `q`: the characters
up to the closing quote, with the remainder after it.  Escape sequences,
embedded newlines and unterminated literals are outside the modelled
subset and fail. -/
def parseStringBody (q : Char) : List Char → Option (List Char × List Char)
  | [] => none
  | c :: cs =>
    if c = q then some ([], cs)
    else if c = '\\' ∨ c = '\n' then none
    else (parseStringBody q cs).map (fun p => (c :: p.1, p.2))

/-- A decimal integer or float literal at the front of the input. -/
def parseNumber (cs : List Char) : Option (PyVal × List Char) :=
  let p := takeDigits cs
  if p.1 = [] then none
  else
    match p.2 with
    | '.' :: r2 =>
      let q := takeDigits r2
      some (PyVal.floatLit ⟨p.1 ++ '.' :: q.1⟩, q.2)
    | r1 => some (PyVal.intVal (digitsToNat p.1), r1)

/-- A literal at the front of the input: quoted string, integer or float. -/
def parseLiteral (cs : List Char) : Option (PyVal × List Char) :=
  match cs with
  | [] => none
  | c :: rest =>
    if c = '"' ∨ c = squote then
      match parseStringBody c rest with
      | none => none
      | some p => some (PyVal.str ⟨p.1⟩, p.2)
    else if c.isDigit then parseNumber (c :: rest)
    else none

/-- A whole line as a simple assignment `<identifier> = <literal>` with
optional spaces/tabs around `=` and at the end of the line.  Returns the
bound name and value, or `none` for a compile failure. -/
def parseAssign (l : List Char) : Option (String × PyVal) :=
  match takeIdent l with
  | ([], _) => none
  | (c :: ident, r1) =>
    if isIdentStart c then
      match r1.dropWhile isSpaceTab with
      | '=' :: r3 =>
        match parseLiteral (r3.dropWhile isSpaceTab) with
        | none => none
        | some (v, r5) =>
          if r5.dropWhile isSpaceTab = [] then some (⟨c :: ident⟩, v) else none
      | _ => none
    else none

/-- The namespace dictionary `exec` populates: association list, most
recent binding first. -/
abbrev PyDict := List (String × PyVal)

/-- Dictionary update `d[k] = v`. -/
def dictSet (d : PyDict) (k : String) (v : PyVal) : PyDict := (k, v) :: d

/-- Dictionary lookup `d[k]`, `none` when the key raises `KeyError`. -/
def dictGet (d : PyDict) (k : String) : Option PyVal :=
  (d.find? (fun p => p.1 == k)).map (fun p => p.2)

/-- Split a source text on newline characters, like Python's line-based
compilation view of a source string. -/
def splitLines : List Char → List (List Char)
  | [] => [[]]
  | c :: cs =>
    if c = '\n' then [] :: splitLines cs
    else
      match splitLines cs with
      | [] => [[c]]
      | l :: ls => (c :: l) :: ls

/-- Execute the lines of a snippet in order over a namespace: blank lines
and comment lines are skipped, a line indented at top level is a compile
failure (IndentationError), every other line must be a simple assignment.
`none` is the `exec` call raising. -/
def execLines (d : PyDict) : List (List Char) → Option PyDict
  | [] => some d
  | l :: ls =>
    let t := l.dropWhile isSpaceTab
    if t = [] then execLines d ls
    else if t.head? = some '#' then execLines d ls
    else if t ≠ l then none
    else
      match parseAssign l with
      | none => none
      | some kv => execLines (dictSet d kv.1 kv.2) ls

/-- `exec(s, d)` for a source string `s` within the modelled subset. -/
def execStr (s : String) (d : PyDict) : Option PyDict :=
  execLines d (splitLines s.data)

/-- The `'# -*- coding: utf-8 -*-\n'` preamble the source prepends to the
matched line before evaluating it. -/
def preamble : String := "# -*- coding: utf-8 -*-\n"

/-- Python `haystack.find(needle)` scan: first index at which `needle`
is a prefix of the remaining haystack, else `-1`. -/
def findSubAux (needle : List Char) : List Char → Nat → Int
  | [], i => if List.isPrefixOf needle [] then (i : Int) else -1
  | c :: t, i =>
    if List.isPrefixOf needle (c :: t) then (i : Int) else findSubAux needle t (i + 1)

/-- Python's `s.find(sub)`: index of the first occurrence of `sub` in `s`,
`-1` when absent. -/
def pyFind (s sub : String) : Int := findSubAux sub.data s.data 0

/-- The loop condition `line.find('__version__') == 0` of the source. -/
def markerMatches (line : String) : Bool := pyFind line "__version__" == 0

/-- The hard-coded path the source opens. -/
def scriptName : String := "thermod-monitor-dbstats"

/-- The filesystem as the function sees it: a path maps to the
newline-stripped lines of a readable text file, or to `none` when opening
it raises an I/O error. -/
structure FS where
  read : String → Option (List String)

/-- Shallow embedding of `get_version` from `setup.py`: open the fixed
script file, scan its lines for the first one on which
`line.find('__version__') == 0`, `exec` the preamble plus that line into a
fresh namespace and return the value bound to `__version__`.  Each failure
mode of the source is an explicit `PyErr`. -/
def get_version (fs : FS) : Except PyErr PyVal :=
  match fs.read scriptName with
  | none => Except.error PyErr.ioError
  | some lines =>
    match lines.find? markerMatches with
    | none => Except.error PyErr.typeErrorNone
    | some line =>
      match execStr (preamble ++ line) [] with
      | none => Except.error PyErr.syntaxError
      | some main_ns =>
        match dictGet main_ns "__version__" with
        | none => Except.error (PyErr.keyError "__version__")
        | some v => Except.ok v

/-- The ambient mutable state a `setup.py` run could touch: the filesystem
and the module-level namespace of the running script (distinct from the
fresh local `main_ns` that `exec` receives and that is discarded). -/
structure World where
  fs : FS
  globals : PyDict

/-- State-passing form of `get_version`: the source only opens the script
read-only and execs into a fresh local dictionary, so the translation of
each statement leaves the world unchanged. -/
def get_versionState (w : World) : Except PyErr PyVal × World :=
  (get_version w.fs, w)

/-- The shape of a genuine version-declaration line,
`__version__ = "<v>"`. -/
def markerLine (v : String) : String := "__version__ = \"" ++ v ++ "\""

/-- A version string whose quoted literal is inside the modelled subset:
no quote, no backslash, no newline. -/
def plainStr (v : String) : Prop :=
  ∀ c ∈ v.data, c ≠ '"' ∧ c ≠ '\\' ∧ c ≠ '\n'

instance (v : String) : Decidable (plainStr v) := by
  unfold plainStr; infer_instance

/-- A list is a prefix of itself followed by anything. -/
lemma isPrefixOf_append_self (l r : List Char) : l.isPrefixOf (l ++ r) = true := by
  induction l with
  | nil => simp [List.isPrefixOf]
  | cons c cs ih => simp [List.isPrefixOf, ih]

/-- When the needle sits right at the scan position, `findSubAux` reports
that position. -/
lemma findSubAux_of_prefix (needle hay : List Char) (i : Nat)
    (h : needle.isPrefixOf hay = true) : findSubAux needle hay i = i := by
  cases hay with
  | nil => simp [findSubAux, h]
  | cons c t => simp [findSubAux, h]

/-- `findSubAux` starting at `i` returns `-1` or an index at least `i`. -/
lemma findSubAux_neg_or_ge (needle : List Char) :
    ∀ (hay : List Char) (i : Nat),
      findSubAux needle hay i = -1 ∨ (i : Int) ≤ findSubAux needle hay i := by
  intro hay
  induction hay with
  | nil =>
    intro i
    by_cases h : needle.isPrefixOf [] = true
    · right; simp [findSubAux, h]
    · left; simp only [findSubAux, if_neg h]
  | cons c t ih =>
    intro i
    by_cases h : needle.isPrefixOf (c :: t) = true
    · right; simp [findSubAux, h]
    · rcases ih (i + 1) with h1 | h1
      · left; simpa [findSubAux, h] using h1
      · right
        have : (i : Int) ≤ ((i + 1 : Nat) : Int) := by push_cast; omega
        simp only [findSubAux, h, if_false]
        calc (i : Int) ≤ ((i + 1 : Nat) : Int) := this
          _ ≤ findSubAux needle t (i + 1) := h1

/-- Python's `s.find(sub) == 0` holds exactly when `sub` occurs at column
zero, i.e. is a prefix of `s`. -/
lemma pyFind_eq_zero_iff (s sub : String) :
    pyFind s sub = 0 ↔ sub.data.isPrefixOf s.data = true := by
  constructor
  · intro h
    unfold pyFind at h
    by_contra hp
    cases hd : s.data with
    | nil =>
      rw [hd] at h hp
      simp only [findSubAux, if_neg hp] at h
      exact absurd h (by norm_num)
    | cons c t =>
      rw [hd] at h hp
      simp only [findSubAux, if_neg hp] at h
      norm_num at h
      rcases findSubAux_neg_or_ge sub.data t 1 with h1 | h1 <;> omega
  · intro h
    unfold pyFind
    exact findSubAux_of_prefix _ _ _ h

/-- The source's loop condition accepts a line exactly when `__version__`
is a prefix of it. -/
lemma markerMatches_iff (l : String) :
    markerMatches l = true ↔ ("__version__".data.isPrefixOf l.data) = true := by
  unfold markerMatches
  rw [beq_iff_eq]
  exact pyFind_eq_zero_iff l "__version__"

/-- First-match scan over a split list: everything before fails the
predicate, `m` passes, so `find?` returns `m` whatever follows it. -/
lemma find?_append_first {α : Type} (p : α → Bool) (pre : List α) (m : α) (post : List α)
    (hpre : ∀ l ∈ pre, p l = false) (hm : p m = true) :
    (pre ++ m :: post).find? p = some m := by
  induction pre with
  | nil => simpa using List.find?_cons_of_pos post hm
  | cons a as ih =>
    have ha : p a = false := hpre a (by simp)
    rw [List.cons_append, List.find?_cons_of_neg _ (by simp [ha])]
    exact ih (fun l hl => hpre l (by simp [hl]))

/-- A text without newline characters is a single source line. -/
lemma splitLines_no_newline (cs : List Char) (h : '\n' ∉ cs) : splitLines cs = [cs] := by
  induction cs with
  | nil => rfl
  | cons c t ih =>
    have hc : ¬(c = '\n') := fun hc => h (by simp [hc])
    have ht : '\n' ∉ t := fun hm => h (by simp [hm])
    simp only [splitLines, if_neg hc, ih ht]

/-- Splitting separates a newline-free chunk before a newline. -/
lemma splitLines_append (p cs : List Char) (h : '\n' ∉ p) :
    splitLines (p ++ '\n' :: cs) = p :: splitLines cs := by
  induction p with
  | nil => simp [splitLines]
  | cons c t ih =>
    have hc : ¬(c = '\n') := fun hc => h (by simp [hc])
    have ht : '\n' ∉ t := fun hm => h (by simp [hm])
    simp only [List.cons_append, splitLines, List.append_eq, if_neg hc, ih ht]

/-- The characters of the encoding-declaration preamble before its
newline. -/
def preambleLine : List Char := "# -*- coding: utf-8 -*-".data

lemma preamble_data : preamble.data = preambleLine ++ ['\n'] := rfl

/-- The snippet the source builds splits into the preamble comment line
followed by the matched line. -/
lemma splitLines_preamble (l : String) (h : '\n' ∉ l.data) :
    splitLines (preamble ++ l).data = [preambleLine, l.data] := by
  rw [String.data_append, preamble_data, List.append_assoc, List.singleton_append]
  rw [splitLines_append _ _ (by decide), splitLines_no_newline _ h]

/-- An identifier head character is not intra-line whitespace. -/
lemma not_spaceTab_of_identStart {c : Char} (h : isIdentStart c = true) :
    isSpaceTab c = false := by
  cases hb : isSpaceTab c
  · rfl
  · exfalso
    have hsp : c = ' ' ∨ c = '\t' := by simpa [isSpaceTab] using hb
    rcases hsp with rfl | rfl <;> exact absurd h (by decide)

/-- An identifier head character is not the comment character. -/
lemma identStart_ne_hash {c : Char} (h : isIdentStart c = true) : ¬(c = '#') := by
  intro hc; subst hc; exact absurd h (by decide)

/-- A run of identifier characters contains no newline. -/
lemma no_newline_of_identChars {id : List Char}
    (h : ∀ c ∈ id, isIdentChar c = true) : '\n' ∉ id := by
  intro hm
  exact absurd (h _ hm) (by decide)

/-- `takeIdent` consumes exactly an identifier run that stops at a
non-identifier character. -/
lemma takeIdent_append (id : List Char) (h : ∀ c ∈ id, isIdentChar c = true)
    (c0 : Char) (hc : isIdentChar c0 = false) (rest : List Char) :
    takeIdent (id ++ c0 :: rest) = (id, c0 :: rest) := by
  induction id with
  | nil => simp [takeIdent, hc]
  | cons a as ih =>
    have ha : isIdentChar a = true := h a (by simp)
    simp only [List.cons_append, takeIdent, ha, if_true, List.append_eq,
      ih (fun c hcm => h c (by simp [hcm]))]

/-- A quoted body free of the quote, backslash and newline parses up to
the closing quote. -/
lemma parseStringBody_closed (q : Char) (body rest : List Char)
    (h : ∀ c ∈ body, ¬(c = q) ∧ ¬(c = '\\') ∧ ¬(c = '\n')) :
    parseStringBody q (body ++ q :: rest) = some (body, rest) := by
  induction body with
  | nil => simp [parseStringBody]
  | cons a as ih =>
    obtain ⟨h1, h2, h3⟩ := h a (by simp)
    have hor : ¬(a = '\\' ∨ a = '\n') := by tauto
    simp only [List.cons_append, parseStringBody, if_neg h1, if_neg hor,
      List.append_eq, ih (fun c hc => h c (by simp [hc]))]
    rfl

/-- A double-quoted literal with a plain body evaluates to exactly that
body, consuming the whole input. -/
lemma parseLiteral_quoted (v : String) (hv : plainStr v) :
    parseLiteral ('"' :: v.data ++ ['"']) = some (PyVal.str v, []) := by
  have hb : parseStringBody '"' (v.data ++ '"' :: []) = some (v.data, []) :=
    parseStringBody_closed '"' v.data [] (fun c hc => hv c hc)
  simp only [List.cons_append, parseLiteral, hb]
  rfl

/-- A parsable literal does not begin with intra-line whitespace. -/
lemma parseLiteral_not_space (lit : List Char) (p : PyVal × List Char)
    (h : parseLiteral lit = some p) : lit.dropWhile isSpaceTab = lit := by
  cases lit with
  | nil => rfl
  | cons c rest =>
    have hcases : (c = '"' ∨ c = squote) ∨ c.isDigit = true := by
      by_cases h1 : c = '"' ∨ c = squote
      · exact Or.inl h1
      · by_cases h2 : c.isDigit = true
        · exact Or.inr h2
        · exfalso
          simp only [parseLiteral, if_neg h1, if_neg h2] at h
          exact Option.noConfusion h
    have hc : isSpaceTab c = false := by
      rcases hcases with (rfl | rfl) | h1
      · decide
      · decide
      · cases hb : isSpaceTab c
        · rfl
        · have hsp : c = ' ' ∨ c = '\t' := by simpa [isSpaceTab] using hb
          rcases hsp with rfl | rfl <;> exact absurd h1 (by decide)
    simp [List.dropWhile_cons, hc]

/-- Compiling a simple assignment line `<ident> = <literal>` yields the
binding of that identifier to the literal's value. -/
lemma parseAssign_simple (c0 : Char) (id lit : List Char) (val : PyVal)
    (hstart : isIdentStart c0 = true)
    (hall : ∀ c ∈ c0 :: id, isIdentChar c = true)
    (hlit : parseLiteral lit = some (val, [])) :
    parseAssign ((c0 :: id) ++ ' ' :: '=' :: ' ' :: lit)
      = some (String.mk (c0 :: id), val) := by
  have hti : takeIdent ((c0 :: id) ++ ' ' :: '=' :: ' ' :: lit)
      = (c0 :: id, ' ' :: '=' :: ' ' :: lit) :=
    takeIdent_append _ hall ' ' (by decide) _
  have hlitdrop : List.dropWhile isSpaceTab lit = lit :=
    parseLiteral_not_space lit (val, []) hlit
  have hd1 : List.dropWhile isSpaceTab (' ' :: '=' :: ' ' :: lit) = '=' :: ' ' :: lit := by
    simp [List.dropWhile_cons, isSpaceTab]
  have hd2 : List.dropWhile isSpaceTab (' ' :: lit) = lit := by
    simp [List.dropWhile_cons, isSpaceTab, hlitdrop]
  simp only [parseAssign, hti, hstart, if_true, hd1, hd2, hlit, List.dropWhile_nil]

/-- The encoding-declaration preamble line is a comment and is skipped. -/
lemma execLines_preamble (d : PyDict) (rest : List (List Char)) :
    execLines d (preambleLine :: rest) = execLines d rest := rfl

/-- Executing a single simple assignment line binds its identifier. -/
lemma execLines_assign (d : PyDict) (c0 : Char) (id lit : List Char) (val : PyVal)
    (hstart : isIdentStart c0 = true)
    (hall : ∀ c ∈ c0 :: id, isIdentChar c = true)
    (hlit : parseLiteral lit = some (val, [])) :
    execLines d [(c0 :: id) ++ ' ' :: '=' :: ' ' :: lit]
      = some (dictSet d (String.mk (c0 :: id)) val) := by
  have hc0 : isSpaceTab c0 = false := not_spaceTab_of_identStart hstart
  have hhash : ¬(c0 = '#') := identStart_ne_hash hstart
  have hpa := parseAssign_simple c0 id lit val hstart hall hlit
  simp only [List.cons_append] at hpa ⊢
  simp only [execLines, List.dropWhile_cons, hc0, Bool.false_eq_true, if_false, hpa]
  simp [hhash]

/-- Evaluating the snippet built from the preamble and a simple assignment
line in a fresh namespace produces exactly that one binding. -/
lemma execStr_assign (l : String) (c0 : Char) (id lit : List Char) (val : PyVal)
    (hl : l.data = (c0 :: id) ++ ' ' :: '=' :: ' ' :: lit)
    (hstart : isIdentStart c0 = true)
    (hall : ∀ c ∈ c0 :: id, isIdentChar c = true)
    (hnl : '\n' ∉ lit)
    (hlit : parseLiteral lit = some (val, [])) :
    execStr (preamble ++ l) [] = some [(String.mk (c0 :: id), val)] := by
  have hline : '\n' ∉ l.data := by
    rw [hl]
    intro hm
    rcases List.mem_append.mp hm with hm | hm
    · exact absurd (hall _ hm) (by decide)
    · simp only [List.mem_cons] at hm
      rcases hm with hm | hm | hm | hm
      · exact absurd hm (by decide)
      · exact absurd hm (by decide)
      · exact absurd hm (by decide)
      · exact hnl hm
  unfold execStr
  rw [splitLines_preamble l hline]
  rw [show ([preambleLine, l.data] : List (List Char))
      = preambleLine :: [l.data] from rfl]
  rw [execLines_preamble, hl, execLines_assign [] c0 id lit val hstart hall hlit]
  rfl

/-- The characters of `__version__ = "<v>"` decomposed into identifier,
spaced equals sign and quoted literal. -/
lemma markerLine_data (v : String) :
    (markerLine v).data
      = ('_' :: "_version__".data) ++ ' ' :: '=' :: ' ' :: ('"' :: v.data ++ ['"']) := rfl

/-- Unfolding of `get_version` once the file contents are known. -/
lemma get_version_read_some (fs : FS) (lines : List String)
    (hf : fs.read scriptName = some lines) :
    get_version fs =
      match lines.find? markerMatches with
      | none => Except.error PyErr.typeErrorNone
      | some line =>
        match execStr (preamble ++ line) [] with
        | none => Except.error PyErr.syntaxError
        | some main_ns =>
          match dictGet main_ns "__version__" with
          | none => Except.error (PyErr.keyError "__version__")
          | some v => Except.ok v := by
  unfold get_version
  rw [hf]

/-- A genuine declaration line passes the source's scan condition. -/
lemma markerMatches_markerLine (v : String) : markerMatches (markerLine v) = true := by
  rw [markerMatches_iff]
  rw [show ("__version__".data) = ('_' :: "_version__".data) from rfl, markerLine_data]
  exact isPrefixOf_append_self _ _

/-- Main evaluation lemma: when the first line passing the scan condition
is `__version__ = "<v>"` with a plain `v`, `get_version` returns exactly
the string `v`. -/
lemma get_version_of_marker (fs : FS) (pre post : List String) (v : String)
    (hv : plainStr v) (hpre : ∀ l ∈ pre, markerMatches l = false)
    (hf : fs.read scriptName = some (pre ++ markerLine v :: post)) :
    get_version fs = Except.ok (PyVal.str v) := by
  have hm : markerMatches (markerLine v) = true := markerMatches_markerLine v
  have hnl : '\n' ∉ ('"' :: v.data ++ ['"']) := by
    intro hm2
    rcases List.mem_cons.mp hm2 with h2 | h2
    · exact absurd h2 (by decide)
    · rcases List.mem_append.mp h2 with h3 | h3
      · exact (hv _ h3).2.2 rfl
      · rw [List.mem_singleton] at h3
        exact absurd h3 (by decide)
  have hexec : execStr (preamble ++ markerLine v) []
      = some [(String.mk ('_' :: "_version__".data), PyVal.str v)] :=
    execStr_assign (markerLine v) '_' "_version__".data ('"' :: v.data ++ ['"'])
      (PyVal.str v) (markerLine_data v) (by decide) (by decide) hnl
      (parseLiteral_quoted v hv)
  rw [get_version_read_some fs _ hf]
  simp only [find?_append_first markerMatches pre (markerLine v) post hpre hm, hexec]
  rfl

/-- A line binding a longer identifier that merely begins with
`__version__`, e.g. `__version__info = "<x>"`. -/
def impostorLine (x : String) : String := "__version__info = \"" ++ x ++ "\""

lemma impostorLine_data (x : String) :
    (impostorLine x).data
      = ('_' :: "_version__info".data) ++ ' ' :: '=' :: ' ' :: ('"' :: x.data ++ ['"']) := rfl

/-- The scan condition also accepts the impostor line: the marker is a
prefix of it even though the bound identifier is longer. -/
lemma markerMatches_impostor (x : String) : markerMatches (impostorLine x) = true := by
  rw [markerMatches_iff]
  rw [show (impostorLine x).data
      = "__version__".data ++ ('i' :: 'n' :: 'f' :: 'o' :: ' ' :: '=' :: ' '
        :: ('"' :: x.data ++ ['"'])) from rfl]
  exact isPrefixOf_append_self _ _

/-- When the first accepted line binds `__version__info` instead of
`__version__`, the final lookup raises `KeyError` - the scan never
reaches any later genuine declaration line. -/
lemma get_version_impostor (fs : FS) (x : String) (post : List String)
    (hx : plainStr x)
    (hf : fs.read scriptName = some (impostorLine x :: post)) :
    get_version fs = Except.error (PyErr.keyError "__version__") := by
  have hm : markerMatches (impostorLine x) = true := markerMatches_impostor x
  have hnl : '\n' ∉ ('"' :: x.data ++ ['"']) := by
    intro hm2
    rcases List.mem_cons.mp hm2 with h2 | h2
    · exact absurd h2 (by decide)
    · rcases List.mem_append.mp h2 with h3 | h3
      · exact (hx _ h3).2.2 rfl
      · rw [List.mem_singleton] at h3
        exact absurd h3 (by decide)
  have hexec : execStr (preamble ++ impostorLine x) []
      = some [(String.mk ('_' :: "_version__info".data), PyVal.str x)] :=
    execStr_assign (impostorLine x) '_' "_version__info".data ('"' :: x.data ++ ['"'])
      (PyVal.str x) (impostorLine_data x) (by decide) (by decide) hnl
      (parseLiteral_quoted x hx)
  rw [get_version_read_some fs _ hf]
  simp only [List.find?_cons_of_pos post hm, hexec]
  rfl

/-- When the first line binds `__version__` to any literal of the
modelled subset, `get_version` returns that literal's value unchanged,
with no check that it is a string. -/
lemma get_version_literal (fs : FS) (rest : List String) (lit : String) (val : PyVal)
    (hlit : parseLiteral lit.data = some (val, []))
    (hnl : '\n' ∉ lit.data)
    (hf : fs.read scriptName = some (("__version__ = " ++ lit) :: rest)) :
    get_version fs = Except.ok val := by
  have hdata : ("__version__ = " ++ lit).data
      = ('_' :: "_version__".data) ++ ' ' :: '=' :: ' ' :: lit.data := by
    rw [String.data_append]
    rfl
  have hm : markerMatches ("__version__ = " ++ lit) = true := by
    rw [markerMatches_iff]
    rw [show ("__version__ = " ++ lit).data
        = "__version__".data ++ (' ' :: '=' :: ' ' :: lit.data) by
      rw [String.data_append]; rfl]
    exact isPrefixOf_append_self _ _
  have hexec : execStr (preamble ++ ("__version__ = " ++ lit)) []
      = some [(String.mk ('_' :: "_version__".data), val)] :=
    execStr_assign _ '_' "_version__".data lit.data val hdata
      (by decide) (by decide) hnl hlit
  rw [get_version_read_some fs _ hf]
  simp only [List.find?_cons_of_pos rest hm, hexec]
  rfl

/-- Fixture filesystem on which every path reads as the given lines. -/
def fsOf (ls : List String) : FS := ⟨fun _ => some ls⟩

/-- Fixture filesystem on which every open fails. -/
def fsMissing : FS := ⟨fun _ => none⟩

/-- C1: for every file whose first line is the marker assignment
`__version__ = "<v>"` with a plain string literal `v` (in particular
`"1.2.3"`), `get_version` returns exactly the string `v`. -/
theorem claim1_first_line_version (fs : FS) (v : String) (rest : List String)
    (hv : plainStr v)
    (hf : fs.read scriptName = some (markerLine v :: rest)) :
    get_version fs = Except.ok (PyVal.str v) :=
  get_version_of_marker fs [] rest v hv (by simp) hf

theorem claim1_witness :
    get_version (fsOf [markerLine "1.2.3"]) = Except.ok (PyVal.str "1.2.3") :=
  claim1_first_line_version (fsOf [markerLine "1.2.3"]) "1.2.3" [] (by decide) rfl

/-- C2: with two differently-valued marker lines present the value comes
from the first accepted line only, and nothing after that line influences
the result: two files agreeing up to and including the first marker line
resolve identically whatever follows. -/
theorem claim2_first_match_only (fs fs' : FS) (pre post post' : List String) (v : String)
    (hv : plainStr v)
    (hpre : ∀ l ∈ pre, markerMatches l = false)
    (hf : fs.read scriptName = some (pre ++ markerLine v :: post))
    (hf' : fs'.read scriptName = some (pre ++ markerLine v :: post')) :
    get_version fs = Except.ok (PyVal.str v) ∧ get_version fs = get_version fs' :=
  ⟨get_version_of_marker fs pre post v hv hpre hf,
   (get_version_of_marker fs pre post v hv hpre hf).trans
     (get_version_of_marker fs' pre post' v hv hpre hf').symm⟩

theorem claim2_witness :
    get_version (fsOf [markerLine "1.0", markerLine "2.0"]) = Except.ok (PyVal.str "1.0") ∧
    get_version (fsOf [markerLine "1.0", markerLine "2.0"])
      = get_version (fsOf [markerLine "1.0"]) :=
  claim2_first_match_only (fsOf [markerLine "1.0", markerLine "2.0"])
    (fsOf [markerLine "1.0"]) [] [markerLine "2.0"] [] "1.0"
    (by decide) (by simp) rfl rfl

/-- C3: round-trip - for any plain version string `v` assigned on the
first accepted declaration line, the resolved value is exactly the string
`v`, with no normalization or trimming applied. -/
theorem claim3_round_trip (fs : FS) (pre post : List String) (v : String)
    (hv : plainStr v)
    (hpre : ∀ l ∈ pre, markerMatches l = false)
    (hf : fs.read scriptName = some (pre ++ markerLine v :: post)) :
    get_version fs = Except.ok (PyVal.str v) :=
  get_version_of_marker fs pre post v hv hpre hf

theorem claim3_witness :
    get_version (fsOf ["import thermod", markerLine " 1.2.0-rc1 "])
      = Except.ok (PyVal.str " 1.2.0-rc1 ") :=
  claim3_round_trip (fsOf ["import thermod", markerLine " 1.2.0-rc1 "])
    ["import thermod"] [] " 1.2.0-rc1 " (by decide) (by decide) rfl

/-- C4: when no line passes the scan condition, `version_str` stays
`None` and the evaluation step `exec(None, main_ns)` raises: `get_version`
fails rather than returning a default or empty string. -/
theorem claim4_no_marker_fails (fs : FS) (lines : List String)
    (hf : fs.read scriptName = some lines)
    (hnone : ∀ l ∈ lines, markerMatches l = false) :
    get_version fs = Except.error PyErr.typeErrorNone := by
  rw [get_version_read_some fs lines hf]
  have hfind : lines.find? markerMatches = none :=
    List.find?_eq_none.mpr (fun x hx => by simp [hnone x hx])
  rw [hfind]

theorem claim4_witness :
    get_version (fsOf ["import sys", "x = 1"]) = Except.error PyErr.typeErrorNone :=
  claim4_no_marker_fails (fsOf ["import sys", "x = 1"]) ["import sys", "x = 1"]
    rfl (by decide)

/-- C5: when the input path does not reference an existing readable file,
`open` raises and `get_version` propagates an I/O error to the caller
instead of returning a placeholder value. -/
theorem claim5_missing_file (fs : FS)
    (h : fs.read scriptName = none) :
    get_version fs = Except.error PyErr.ioError := by
  unfold get_version
  rw [h]

theorem claim5_witness : get_version fsMissing = Except.error PyErr.ioError :=
  claim5_missing_file fsMissing rfl

/-- C6: the declaration line may sit after the first line - with any
non-matching lines before it, the top-to-bottom scan still finds it first
and returns its value. -/
theorem claim6_later_marker (fs : FS) (pre post : List String) (v : String)
    (hv : plainStr v)
    (_hne : pre ≠ [])
    (hpre : ∀ l ∈ pre, markerMatches l = false)
    (hf : fs.read scriptName = some (pre ++ markerLine v :: post)) :
    get_version fs = Except.ok (PyVal.str v) :=
  get_version_of_marker fs pre post v hv hpre hf

theorem claim6_witness :
    get_version
      (fsOf ["#!/usr/bin/env python3", "", "import sys", markerLine "3.1.4", "rest"])
      = Except.ok (PyVal.str "3.1.4") :=
  claim6_later_marker
    (fsOf ["#!/usr/bin/env python3", "", "import sys", markerLine "3.1.4", "rest"])
    ["#!/usr/bin/env python3", "", "import sys"] ["rest"] "3.1.4"
    (by decide) (by decide) (by decide) rfl

/-- C7: a line is accepted exactly when `__version__` starts at column
zero: the scan condition is equivalent to the marker being a prefix of
the line, and a file in which the marker never occurs at column zero
(even when it occurs further right on some lines) has no marker line at
all, so resolution fails without using those lines. -/
theorem claim7_column_zero :
    (∀ l : String, markerMatches l = true ↔ "__version__".data.isPrefixOf l.data = true) ∧
    (∀ (fs : FS) (lines : List String), fs.read scriptName = some lines →
      (∀ l ∈ lines, "__version__".data.isPrefixOf l.data = false) →
      get_version fs = Except.error PyErr.typeErrorNone) := by
  constructor
  · exact markerMatches_iff
  · intro fs lines hf h
    rw [get_version_read_some fs lines hf]
    have hfind : lines.find? markerMatches = none := by
      apply List.find?_eq_none.mpr
      intro x hx hm
      have hpref := (markerMatches_iff x).mp hm
      rw [h x hx] at hpref
      exact Bool.noConfusion hpref
    rw [hfind]

theorem claim7_witness :
    (markerMatches "  __version__ = \"9\"" = true ↔
      "__version__".data.isPrefixOf ("  __version__ = \"9\"").data = true) ∧
    get_version (fsOf ["  __version__ = \"9\"", "v = __version__"])
      = Except.error PyErr.typeErrorNone :=
  ⟨claim7_column_zero.1 "  __version__ = \"9\"",
   claim7_column_zero.2 (fsOf ["  __version__ = \"9\"", "v = __version__"])
     ["  __version__ = \"9\"", "v = __version__"] rfl (by decide)⟩

/-- C8: no side effects beyond the file read - in state-passing form the
world (filesystem and module globals) comes back unchanged, and the
result depends only on what is read from the script file, not on any
other ambient state; the evaluation namespace is local and discarded. -/
theorem claim8_no_side_effects :
    (∀ w : World, (get_versionState w).2 = w) ∧
    (∀ w w' : World, w.fs.read scriptName = w'.fs.read scriptName →
      (get_versionState w).1 = (get_versionState w').1) := by
  constructor
  · intro w; rfl
  · intro w w' h
    show get_version w.fs = get_version w'.fs
    unfold get_version
    rw [h]

theorem claim8_witness :
    (get_versionState ⟨fsOf [markerLine "1.0"], []⟩).2 = ⟨fsOf [markerLine "1.0"], []⟩ ∧
    (get_versionState ⟨fsOf [markerLine "1.0"], []⟩).1
      = (get_versionState ⟨fsOf [markerLine "1.0"], [("counter", PyVal.intVal 7)]⟩).1 :=
  ⟨claim8_no_side_effects.1 ⟨fsOf [markerLine "1.0"], []⟩,
   claim8_no_side_effects.2 ⟨fsOf [markerLine "1.0"], []⟩
     ⟨fsOf [markerLine "1.0"], [("counter", PyVal.intVal 7)]⟩ rfl⟩

/-- C9: a line starting with a longer identifier of which `__version__`
is a proper prefix (here `__version__info`) is accepted by the scan;
evaluating it binds no `__version__` key, so `get_version` fails with a
key-lookup error instead of continuing to a later genuine marker line. -/
theorem claim9_prefix_identifier_keyerror (fs : FS) (x : String) (post : List String)
    (hx : plainStr x)
    (hf : fs.read scriptName = some (impostorLine x :: post)) :
    get_version fs = Except.error (PyErr.keyError "__version__") :=
  get_version_impostor fs x post hx hf

theorem claim9_witness :
    get_version (fsOf [impostorLine "x", markerLine "1.0"])
      = Except.error (PyErr.keyError "__version__") :=
  claim9_prefix_identifier_keyerror (fsOf [impostorLine "x", markerLine "1.0"])
    "x" [markerLine "1.0"] (by decide) rfl

/-- C10: no type check is made on the resolved value - whatever value the
marker line's literal evaluates to (string or not) is returned verbatim;
in particular `__version__ = 1.2` yields the float value, not a failure. -/
theorem claim10_no_type_check (fs : FS) (lit : String) (val : PyVal) (rest : List String)
    (hlit : parseLiteral lit.data = some (val, []))
    (hnl : '\n' ∉ lit.data)
    (hf : fs.read scriptName = some (("__version__ = " ++ lit) :: rest)) :
    get_version fs = Except.ok val :=
  get_version_literal fs rest lit val hlit hnl hf

theorem claim10_witness :
    get_version (fsOf ["__version__ = " ++ "1.2"]) = Except.ok (PyVal.floatLit "1.2") :=
  claim10_no_type_check (fsOf ["__version__ = " ++ "1.2"]) "1.2" (PyVal.floatLit "1.2") []
    (by decide) (by decide) rfl
